import Mathlib

/-!
Shallow embedding of the headless-server logger
(`Code/Launcher/HeadlessServer/Logger.cpp`) of the c1-launcher repository.

Strings are modelled as `List Char`; the variadic printf-style rendering of
the message text is external to the logger core (per the design notes) and is
modelled as an already-rendered `List Char` argument.  OS primitives (clock,
thread id, time-zone bias) are modelled as an explicit snapshot record taken
at submission time.  The POSIX build is modelled: `OS_NEWLINE` is `"\n"` and
`OS_PATH_SLASH` is `/`.
-/

set_option autoImplicit false

/-- Message kinds, `ILog::ELogType`. -/
inductive ELogType where
  | eAlways
  | eWarningAlways
  | eErrorAlways
  | eInput
  | eInputResponse
  | eError
  | eWarning
  | eMessage
  | eComment
  deriving DecidableEq, Repr

/-- Destination flags of a message: `Message::FLAG_FILE`, `FLAG_CONSOLE`,
`FLAG_APPEND` (`flags` bitset in the source, modelled as three booleans). -/
structure MsgFlags where
  toFile : Bool
  toConsole : Bool
  append : Bool
  deriving DecidableEq, Repr

/-- A rendered message (struct `Message` in the source).  `pfx` is the
`prefix` field of the source struct. -/
structure Message where
  type : ELogType
  flags : MsgFlags
  pfx : List Char
  content : List Char
  deriving DecidableEq, Repr

/-- Local date-time snapshot, `OS::DateTime`. -/
structure DateTime where
  year : Nat
  month : Nat
  day : Nat
  hour : Nat
  minute : Nat
  second : Nat
  millisecond : Nat
  deriving DecidableEq, Repr

/-- Snapshot of the OS environment taken at submission time:
`OS::GetCurrentDateTimeLocal`, `OS::GetCurrentTimeZoneBias` (minutes),
`OS::GetCurrentThreadID`. -/
structure EnvSnapshot where
  time : DateTime
  tzBiasMinutes : Int
  threadID : Nat
  deriving DecidableEq, Repr

/-- Decimal/hex digit rendering with explicit fuel (`fuel` bounds the number
of digits; it is structural, the value recursion is on `n / base`). -/
def natDigitsBaseAux (base : Nat) : Nat → Nat → List Char
  | 0, _ => []
  | fuel + 1, n =>
    if n < base then [Nat.digitChar n]
    else natDigitsBaseAux base fuel (n / base) ++ [Nat.digitChar (n % base)]

/-- Decimal rendering of a natural number, as printf `%u` does. -/
def natDecimal (n : Nat) : List Char := natDigitsBaseAux 10 (n + 1) n

/-- Lowercase hexadecimal rendering of a natural number, as printf `%x` does. -/
def natHex (n : Nat) : List Char := natDigitsBaseAux 16 (n + 1) n

/-- Zero left-padding to a minimum width, as printf `%0Nu` does. -/
def padLeftZeros (w : Nat) (s : List Char) : List Char :=
  List.replicate (w - s.length) '0' ++ s

/-- printf `%02u`. -/
def pad2 (n : Nat) : List Char := padLeftZeros 2 (natDecimal n)

/-- printf `%03u`. -/
def pad3 (n : Nat) : List Char := padLeftZeros 3 (natDecimal n)

/-- printf `%04u`. -/
def pad4 (n : Nat) : List Char := padLeftZeros 4 (natDecimal n)

/-- printf `%04x`. -/
def pad4hex (n : Nat) : List Char := padLeftZeros 4 (natHex n)

/-- `AddTimeZoneOffset`: `Z` when the UTC bias is zero, otherwise a sign
(inverted relative to the bias sign) followed by zero-padded `HHMM`. -/
def AddTimeZoneOffset (bias : Int) : List Char :=
  if bias = 0 then ['Z']
  else
    let sign : Char := if bias < 0 then '+' else '-'
    let b : Nat := bias.natAbs
    sign :: (pad2 (b / 60) ++ pad2 (b % 60))

/-- `ExpandMessagePrefixSpecifier`: expansion of one `%`-introduced
conversion specifier; unknown specifiers expand to nothing. -/
def ExpandMessagePrefixSpecifier (env : EnvSnapshot) (specifier : Char) : List Char :=
  match specifier with
  | '%' => ['%']
  | 't' => pad4hex env.threadID
  | 'd' => pad2 env.time.day
  | 'm' => pad2 env.time.month
  | 'Y' => pad4 env.time.year
  | 'F' => pad4 env.time.year ++ '-' :: pad2 env.time.month ++ '-' :: pad2 env.time.day
  | 'H' => pad2 env.time.hour
  | 'M' => pad2 env.time.minute
  | 'S' => pad2 env.time.second
  | 'T' => pad2 env.time.hour ++ ':' :: pad2 env.time.minute ++ ':' :: pad2 env.time.second
  | 'N' => pad3 env.time.millisecond
  | 'z' => AddTimeZoneOffset env.tzBiasMinutes
  | _ => []

/-- The character loop of `BuildMessagePrefix`: a `%` followed by a specifier
expands it, a trailing `%` is dropped, other characters are copied. -/
def expandPfxTemplate (env : EnvSnapshot) : List Char → List Char
  | [] => []
  | ['%'] => []
  | '%' :: s :: rest => ExpandMessagePrefixSpecifier env s ++ expandPfxTemplate env rest
  | c :: rest => c :: expandPfxTemplate env rest

/-- Cvar-backed logger configuration: `m_verbosity` and the three cvars
(`log_Verbosity`, `log_FileVerbosity`, `log_Prefix`), each `none` until
registered. -/
structure LoggerConfig where
  mVerbosity : Int
  cvarVerbosity : Option Int
  cvarFileVerbosity : Option Int
  cvarPfx : Option (List Char)
  deriving DecidableEq, Repr

/-- `Logger::GetVerbosityLevel`: the `log_Verbosity` cvar when registered,
otherwise the `m_verbosity` member. -/
def GetVerbosityLevel (cfg : LoggerConfig) : Int :=
  cfg.cvarVerbosity.getD cfg.mVerbosity

/-- `Logger::GetRequiredVerbosity`: required verbosity level per kind. -/
def GetRequiredVerbosity (t : ELogType) : Int :=
  match t with
  | .eAlways => 0
  | .eWarningAlways => 0
  | .eErrorAlways => 0
  | .eInput => 0
  | .eInputResponse => 0
  | .eError => 1
  | .eWarning => 2
  | .eMessage => 3
  | .eComment => 4

/-- `Logger::BuildMessagePrefix`: no prefix until the `log_Prefix` cvar is
registered; empty template or literal `"0"` disables the prefix; a non-empty
expansion gets one trailing space. -/
def BuildMessagePrefix (env : EnvSnapshot) (cfg : LoggerConfig) : List Char :=
  match cfg.cvarPfx with
  | none => []
  | some t =>
    if t = [] ∨ t = ['0'] then []
    else
      let e := expandPfxTemplate env t
      if e = [] then [] else e ++ [' ']

/-- Modelled from the spec: `CRY_COLOR_CODE_YELLOW_STRING` of the missing
`CryCommon/CrySystem/CryColorCode.h` header, a two-character `$`-digit yellow
color marker. -/
def CRY_COLOR_CODE_YELLOW_STRING : List Char := ['$', '6']

/-- Modelled from the spec: `CRY_COLOR_CODE_RED_STRING`, a two-character
`$`-digit red color marker. -/
def CRY_COLOR_CODE_RED_STRING : List Char := ['$', '4']

/-- Modelled from the spec: `CRY_COLOR_CODE_GRAY_STRING`, a two-character
`$`-digit gray color marker. -/
def CRY_COLOR_CODE_GRAY_STRING : List Char := ['$', '9']

/-- The kind-specific decoration prepended by `Logger::BuildMessageContent`. -/
def contentDecoration (t : ELogType) : List Char :=
  match t with
  | .eWarning => CRY_COLOR_CODE_YELLOW_STRING ++ "[Warning] ".toList
  | .eWarningAlways => CRY_COLOR_CODE_YELLOW_STRING ++ "[Warning] ".toList
  | .eError => CRY_COLOR_CODE_RED_STRING ++ "[Error] ".toList
  | .eErrorAlways => CRY_COLOR_CODE_RED_STRING ++ "[Error] ".toList
  | .eComment => CRY_COLOR_CODE_GRAY_STRING
  | .eMessage => []
  | .eAlways => []
  | .eInput => []
  | .eInputResponse => []

/-- `Logger::BuildMessageContent`: decoration followed by the rendered
message text. -/
def BuildMessageContent (t : ELogType) (text : List Char) : List Char :=
  contentDecoration t ++ text

/-- `Logger::PushMessageV`, the pure message-building part: a null format is
dropped, then the console-verbosity gate drops the message, then the
file-verbosity gate clears the ToFile flag, then prefix and content are
built.  Returns the built message, or `none` when the submission is
dropped. -/
def PushMessageV (cfg : LoggerConfig) (env : EnvSnapshot) (t : ELogType)
    (fl : MsgFlags) (format : Option (List Char)) : Option Message :=
  match format with
  | none => none
  | some text =>
    let currentVerbosity := GetVerbosityLevel cfg
    let requiredVerbosity := GetRequiredVerbosity t
    if currentVerbosity < requiredVerbosity then none
    else
      let currentFileVerbosity := cfg.cvarFileVerbosity.getD currentVerbosity
      let fl' := if currentFileVerbosity < requiredVerbosity then { fl with toFile := false } else fl
      some { type := t, flags := fl',
             pfx := BuildMessagePrefix env cfg,
             content := BuildMessageContent t text }

/-- `OS_NEWLINE` (POSIX build). -/
def OS_NEWLINE : List Char := ['\n']

/-- `OS_NEWLINE_LENGTH` (POSIX build). -/
def OS_NEWLINE_LENGTH : Nat := 1

/-- The content transformation loop of `Logger::WriteMessageToFile`:
`\n` is replaced by `OS_NEWLINE`; a `$` consumes the following character,
emitting `$` when that character is itself `$` and nothing otherwise; a
trailing lone `$` is dropped. -/
def formatContentForFile : List Char → List Char
  | [] => []
  | '\n' :: rest => OS_NEWLINE ++ formatContentForFile rest
  | ['$'] => []
  | '$' :: c :: rest =>
    (if c = '$' then ['$'] else []) ++ formatContentForFile rest
  | c :: rest => c :: formatContentForFile rest

/-- The byte buffer assembled by `Logger::WriteMessageToFile`: the prefix
(only for non-Append messages), the transformed content, and a trailing
`OS_NEWLINE`. -/
def fileBuffer (m : Message) : List Char :=
  (if m.flags.append then [] else m.pfx) ++ formatContentForFile m.content ++ OS_NEWLINE

/-- The file-content mutation of `Logger::WriteMessageToFile`: an Append
write first seeks to end-of-file minus `OS_NEWLINE_LENGTH` (overwriting the
previous trailing newline), a plain write appends at the end. -/
def writeFileContent (fileContent : List Char) (m : Message) : List Char :=
  if m.flags.append then
    fileContent.take (fileContent.length - OS_NEWLINE_LENGTH) ++ fileBuffer m
  else
    fileContent ++ fileBuffer m

/-- One callback invocation: `ILogCallback::OnWriteToFile` /
`OnWriteToConsole` receive the raw message content and `!isAppend`. -/
structure CallbackCall where
  cb : Nat
  content : List Char
  isNewLine : Bool
  deriving DecidableEq, Repr

/-- One console print: `IConsole::PrintLine` or `PrintLinePlus`. -/
inductive ConsolePrint where
  | line (s : List Char)
  | linePlus (s : List Char)
  deriving DecidableEq, Repr

/-- Sink-side state when a message is written: whether a log file is open
and its content (`m_file`), whether the console capability is available
(`gEnv->pConsole`), and the registered callbacks (`m_callbacks`). -/
structure SinkState where
  fileOpen : Bool
  fileContent : List Char
  hasConsole : Bool
  callbacks : List Nat
  deriving DecidableEq, Repr

/-- `Logger::WriteMessageToFile`: returns early when no file is open
(no bytes, no callbacks); otherwise mutates the file content and invokes
every callback with `(content, !isAppend)`. -/
def WriteMessageToFile (st : SinkState) (m : Message) : List Char × List CallbackCall :=
  if st.fileOpen then
    (writeFileContent st.fileContent m,
     st.callbacks.map (fun cb => ⟨cb, m.content, !m.flags.append⟩))
  else
    (st.fileContent, [])

/-- `Logger::WriteMessageToConsole`: returns early when no console is
available; otherwise prints the raw content (continuation print for Append)
and invokes every callback with `(content, !isAppend)`. -/
def WriteMessageToConsole (st : SinkState) (m : Message) : List ConsolePrint × List CallbackCall :=
  if st.hasConsole then
    ((if m.flags.append then [ConsolePrint.linePlus m.content] else [ConsolePrint.line m.content]),
     st.callbacks.map (fun cb => ⟨cb, m.content, !m.flags.append⟩))
  else
    ([], [])

/-- The combined effect of `Logger::WriteMessage` on both sinks. -/
structure WriteResult where
  fileContent : List Char
  fileCallbacks : List CallbackCall
  consolePrints : List ConsolePrint
  consoleCallbacks : List CallbackCall
  deriving DecidableEq, Repr

/-- `Logger::WriteMessage`: dispatches to the file sink when `FLAG_FILE` is
set and to the console sink when `FLAG_CONSOLE` is set. -/
def WriteMessage (st : SinkState) (m : Message) : WriteResult :=
  let f := if m.flags.toFile then WriteMessageToFile st m else (st.fileContent, [])
  let c := if m.flags.toConsole then WriteMessageToConsole st m else ([], [])
  { fileContent := f.1, fileCallbacks := f.2,
    consolePrints := c.1, consoleCallbacks := c.2 }

/-- Events of one `Logger::OnUpdate` (drain) call, for reasoning about the
extent of the mutex critical section. -/
inductive DrainEv where
  | acquire
  | write (m : Message)
  | clearQueue
  | release
  deriving DecidableEq, Repr

/-- The event trace of `Logger::OnUpdate` on a given queue: the
`OS::LockGuard` acquires the mutex on entry and releases it when the scope
ends, so every `WriteMessage` call and the `clear` happen with the lock
held. -/
def OnUpdateTrace (queue : List Message) : List DrainEv :=
  DrainEv.acquire :: (queue.map DrainEv.write ++ [DrainEv.clearQueue, DrainEv.release])

/-- The state/output view of `Logger::OnUpdate`: the queue is left empty and
the queued messages are written in FIFO order. -/
def OnUpdate (queue : List Message) : List Message × List Message :=
  ([], queue)

/-- Whether every `write` event in a trace happens strictly after a
`release` event (the claimed detach-then-release-then-write shape). -/
def writesOnlyAfterRelease : Bool → List DrainEv → Bool
  | _, [] => true
  | _, DrainEv.release :: rest => writesOnlyAfterRelease true rest
  | released, DrainEv.write _ :: rest => released && writesOnlyAfterRelease released rest
  | released, _ :: rest => writesOnlyAfterRelease released rest

/-- Whether every `write` event in a trace happens while the lock is held
(after an `acquire`, before any `release`). -/
def writesUnderLock : Bool → List DrainEv → Bool
  | _, [] => true
  | _, DrainEv.acquire :: rest => writesUnderLock true rest
  | _, DrainEv.release :: rest => writesUnderLock false rest
  | held, DrainEv.write _ :: rest => held && writesUnderLock held rest
  | held, DrainEv.clearQueue :: rest => writesUnderLock held rest

/-- File paths, as character lists. -/
abbrev LogPath := List Char

/-- A tiny filesystem: path-to-content association list (first match wins). -/
abbrev FS := List (LogPath × List Char)

/-- Content of a path, `none` when the path does not exist. -/
def fsLookup (fs : FS) (p : LogPath) : Option (List Char) :=
  match fs with
  | [] => none
  | (q, c) :: rest => if q = p then some c else fsLookup rest p

/-- Write (create or overwrite) a path's content. -/
def fsSet (fs : FS) (p : LogPath) (c : List Char) : FS :=
  match fs with
  | [] => [(p, c)]
  | (q, d) :: rest => if q = p then (p, c) :: rest else (q, d) :: fsSet rest p c

/-- Split a list at the last occurrence of a character:
`some (before, after)` without the separator, `none` when absent. -/
def splitAtLastOcc (ch : Char) : List Char → Option (List Char × List Char)
  | [] => none
  | x :: rest =>
    match splitAtLastOcc ch rest with
    | some (b, a) => some (x :: b, a)
    | none => if x = ch then some ([], rest) else none

/-- Modelled from the spec: `PathTools::DirName` of the missing
`Library/PathTools.h` — the directory part of a path (empty when the path
has no slash). -/
def DirName (p : LogPath) : LogPath :=
  match splitAtLastOcc '/' p with
  | some (b, _) => b
  | none => []

/-- Modelled from the spec: `PathTools::BaseName` — the part of a path after
the last slash. -/
def BaseName (p : LogPath) : LogPath :=
  match splitAtLastOcc '/' p with
  | some (_, a) => a
  | none => p

/-- Modelled from the spec: `PathTools::RemoveFileExtension` — the file name
up to its last dot (unchanged when there is no dot). -/
def RemoveFileExtension (name : LogPath) : LogPath :=
  match splitAtLastOcc '.' name with
  | some (b, _) => b
  | none => name

/-- Modelled from the spec: `PathTools::GetFileExtension` — the extension of
the path's base name, dot included (empty when there is no dot). -/
def GetFileExtension (p : LogPath) : LogPath :=
  match splitAtLastOcc '.' (BaseName p) with
  | some (_, a) => '.' :: a
  | none => []

/-- The marker scanned for in the header of a pre-existing log file. -/
def backupNameMarker : List Char := "BackupNameAttachment=".toList

/-- First index whose character satisfies a predicate (the model of
`StringView::Find` of the missing `Library/StringView.h`: first-occurrence
search, reporting the position). -/
def findIdxP (p : Char -> Bool) : List Char -> Option Nat
  | [] => none
  | x :: rest => if p x then some 0 else (findIdxP p rest).map (fun i => i + 1)

/-- `ExtractBackupNameAttachment` (from the source): the header must begin
with the marker; the remainder is cut after the first `"` when one exists;
the value then runs up to the first `"` when one exists, otherwise up to the
first CR, otherwise up to the first LF, otherwise to the end of the header
(`StringView::Find` of the missing `Library/StringView.h` is modelled as
first-occurrence search from the given start position). -/
def ExtractBackupNameAttachment (header : List Char) : List Char :=
  if backupNameMarker.isPrefixOf header then
    let h1 := header.drop backupNameMarker.length
    let h2 :=
      match findIdxP (fun c => c == '"') h1 with
      | some pos => h1.drop (pos + 1)
      | none => h1
    match findIdxP (fun c => c == '"') h2 with
    | some pos => h2.take pos
    | none =>
      match findIdxP (fun c => c == '\r') h2 with
      | some pos => h2.take pos
      | none =>
        match findIdxP (fun c => c == '\n') h2 with
        | some pos => h2.take pos
        | none => h2
  else
    []

/-- The claim's reading of the same extraction: the quoted value extends up
to the next `"`, CR, or LF, whichever comes first. -/
def extractBackupNameAttachmentClaimed (header : List Char) : List Char :=
  if backupNameMarker.isPrefixOf header then
    let h1 := header.drop backupNameMarker.length
    let h2 :=
      match findIdxP (fun c => c == '"') h1 with
      | some pos => h1.drop (pos + 1)
      | none => h1
    match findIdxP (fun c => c == '"' || c == '\r' || c == '\n') h2 with
    | some pos => h2.take pos
    | none => h2
  else
    []

/-- The OS file operations that can fail during `Logger::OpenFile` /
`BackupLogFile`, in the order the source attempts them. -/
inductive FileOp where
  | openLog
  | readExisting
  | createBackupDir
  | copyExisting
  | resizeExisting
  deriving DecidableEq, Repr

/-- A fatal setup error thrown by `Logger::OpenFile` / `BackupLogFile`:
the failed operation together with the paths named in the thrown message
(the read failure names no path in the source). -/
structure LogError where
  op : FileOp
  paths : List LogPath
  deriving DecidableEq, Repr

/-- Fault model for the OS primitives used by `Logger::OpenFile`. -/
structure OSFaults where
  openFails : Bool
  readFails : Bool
  mkdirFails : Bool
  copyFails : Bool
  resizeFails : Bool
  deriving DecidableEq, Repr

/-- The fault-free OS. -/
def noFaults : OSFaults := ⟨false, false, false, false, false⟩

/-- The `LogBackups` directory beside the log file. -/
def backupDirPath (filePath : LogPath) : LogPath :=
  DirName filePath ++ '/' :: "LogBackups".toList

/-- The backup destination built by `BackupLogFile`:
`<dir>/LogBackups/<basename-without-extension><attachment><extension>`,
with the attachment extracted from the header. -/
def backupTargetPath (filePath : LogPath) (header : List Char) : LogPath :=
  backupDirPath filePath ++ '/' ::
    (RemoveFileExtension (BaseName filePath) ++ ExtractBackupNameAttachment header
      ++ GetFileExtension filePath)

/-- `Logger::OpenFile` with `BackupLogFile` inlined, over the filesystem
model: open (create when absent); when the file pre-existed, read up to 256
bytes as a header, skip the backup when the header is empty, otherwise
create the backup directory, copy the whole pre-existing file to the backup
path, and truncate the live file to zero; each OS failure raises the
corresponding `LogError` immediately. -/
def OpenFile (faults : OSFaults) (fs : FS) (filePath : LogPath) : Except LogError FS :=
  if faults.openFails then .error ⟨.openLog, [filePath]⟩
  else
    match fsLookup fs filePath with
    | none => .ok (fsSet fs filePath [])
    | some content =>
      if faults.readFails then .error ⟨.readExisting, []⟩
      else
        let header := content.take 256
        if header = [] then
          if faults.resizeFails then .error ⟨.resizeExisting, [filePath]⟩
          else .ok (fsSet fs filePath [])
        else
          if faults.mkdirFails then .error ⟨.createBackupDir, [backupDirPath filePath]⟩
          else
            let bp := backupTargetPath filePath header
            if faults.copyFails then .error ⟨.copyExisting, [filePath, bp]⟩
            else if faults.resizeFails then .error ⟨.resizeExisting, [filePath]⟩
            else .ok (fsSet (fsSet fs bp content) filePath [])

/-- Dropping a submission is decided exactly by the console-verbosity gate
(for a present format string). -/
theorem pushMessageV_eq_none_iff (cfg : LoggerConfig) (env : EnvSnapshot)
    (t : ELogType) (fl : MsgFlags) (text : List Char) :
    PushMessageV cfg env t fl (some text) = none ↔
      GetVerbosityLevel cfg < GetRequiredVerbosity t := by
  by_cases h : GetVerbosityLevel cfg < GetRequiredVerbosity t <;>
    simp [PushMessageV, h]

/-- No kind requires a negative verbosity level. -/
theorem getRequiredVerbosity_nonneg (t : ELogType) : 0 ≤ GetRequiredVerbosity t := by
  cases t <;> simp [GetRequiredVerbosity]

/-- C1: for every message kind the required verbosity level equals the fixed
table (Always, WarningAlways, ErrorAlways, Input, InputResponse map to 0;
Error to 1; Warning to 2; Message to 3; Comment to 4); a submission with a
present format is dropped if and only if the current console verbosity is
strictly below the required level; and console verbosity -1 suppresses every
kind, including the level-0 kinds. -/
theorem c1_verbosity_table_and_drop :
    (GetRequiredVerbosity .eAlways = 0 ∧ GetRequiredVerbosity .eWarningAlways = 0 ∧
     GetRequiredVerbosity .eErrorAlways = 0 ∧ GetRequiredVerbosity .eInput = 0 ∧
     GetRequiredVerbosity .eInputResponse = 0 ∧ GetRequiredVerbosity .eError = 1 ∧
     GetRequiredVerbosity .eWarning = 2 ∧ GetRequiredVerbosity .eMessage = 3 ∧
     GetRequiredVerbosity .eComment = 4) ∧
    (∀ (cfg : LoggerConfig) (env : EnvSnapshot) (t : ELogType) (fl : MsgFlags)
       (text : List Char),
       PushMessageV cfg env t fl (some text) = none ↔
         GetVerbosityLevel cfg < GetRequiredVerbosity t) ∧
    (∀ (cfg : LoggerConfig) (env : EnvSnapshot) (t : ELogType) (fl : MsgFlags)
       (text : List Char), GetVerbosityLevel cfg = -1 →
       PushMessageV cfg env t fl (some text) = none) := by
  refine ⟨by decide, pushMessageV_eq_none_iff, ?_⟩
  intro cfg env t fl text hneg
  rw [pushMessageV_eq_none_iff, hneg]
  have := getRequiredVerbosity_nonneg t
  omega

/-- Configuration with console verbosity -1. -/
def cfgAllSuppressed : LoggerConfig :=
  { mVerbosity := 0, cvarVerbosity := some (-1), cvarFileVerbosity := some (-1),
    cvarPfx := none }

/-- The fixed clock snapshot 2024-01-05 08:30:15.007, UTC bias 0. -/
def envSnap : EnvSnapshot :=
  { time := { year := 2024, month := 1, day := 5, hour := 8, minute := 30,
              second := 15, millisecond := 7 },
    tzBiasMinutes := 0, threadID := 0 }

/-- Flags `FLAG_FILE | FLAG_CONSOLE`. -/
def flagsFileConsole : MsgFlags := { toFile := true, toConsole := true, append := false }

theorem c1_verbosity_table_and_drop_witness :
    GetVerbosityLevel cfgAllSuppressed = -1 ∧
    PushMessageV cfgAllSuppressed envSnap .eAlways flagsFileConsole (some "x".toList) = none :=
  ⟨by decide,
   c1_verbosity_table_and_drop.2.2 cfgAllSuppressed envSnap .eAlways flagsFileConsole
     "x".toList (by decide)⟩

/-- C7: when the console gate passes but the effective file verbosity
(the `log_FileVerbosity` cvar when registered, otherwise the console
verbosity) is strictly below the required level, the built message has its
ToFile flag cleared while its ToConsole flag is untouched, and such a
message never produces file bytes or file callbacks in `WriteMessage`. -/
theorem c7_file_verbosity_clears_tofile :
    ∀ (cfg : LoggerConfig) (env : EnvSnapshot) (t : ELogType) (fl : MsgFlags)
      (text : List Char) (m : Message),
      PushMessageV cfg env t fl (some text) = some m →
      cfg.cvarFileVerbosity.getD (GetVerbosityLevel cfg) < GetRequiredVerbosity t →
      m.flags.toFile = false ∧ m.flags.toConsole = fl.toConsole ∧
      m.flags.append = fl.append ∧
      (∀ st : SinkState, (WriteMessage st m).fileContent = st.fileContent ∧
        (WriteMessage st m).fileCallbacks = []) := by
  intro cfg env t fl text m hpush hfile
  by_cases hv : GetVerbosityLevel cfg < GetRequiredVerbosity t
  · simp [PushMessageV, hv] at hpush
  · simp [PushMessageV, hv, hfile] at hpush
    have hfl : m.flags = { fl with toFile := false } := by
      rw [← hpush]
    refine ⟨by rw [hfl], by rw [hfl], by rw [hfl], ?_⟩
    intro st
    simp [WriteMessage, hfl]

/-- Configuration: console verbosity 4, file verbosity 0. -/
def cfgFileQuiet : LoggerConfig :=
  { mVerbosity := 0, cvarVerbosity := some 4, cvarFileVerbosity := some 0,
    cvarPfx := none }

/-- A sink state with an open file, a console, and one callback. -/
def sinkOpen : SinkState :=
  { fileOpen := true, fileContent := [], hasConsole := true, callbacks := [0] }

theorem c7_file_verbosity_clears_tofile_witness :
    cfgFileQuiet.cvarFileVerbosity.getD (GetVerbosityLevel cfgFileQuiet) <
      GetRequiredVerbosity .eMessage ∧
    ((PushMessageV cfgFileQuiet envSnap .eMessage flagsFileConsole (some "x".toList)).map
        (fun m => m.flags.toFile) = some false) := by
  refine ⟨by decide, ?_⟩
  have h := c7_file_verbosity_clears_tofile cfgFileQuiet envSnap .eMessage flagsFileConsole
    "x".toList
    { type := .eMessage, flags := { toFile := false, toConsole := true, append := false },
      pfx := [], content := "x".toList }
    (by decide) (by decide)
  rw [show PushMessageV cfgFileQuiet envSnap .eMessage flagsFileConsole (some "x".toList) =
      some { type := .eMessage,
             flags := { toFile := false, toConsole := true, append := false },
             pfx := [], content := "x".toList } from by decide]
  simp [h.1]

/-- C10: a message whose ToFile flag survived filtering writes nothing and
triggers no file callbacks when no log file is open, while the console leg is
the same as it would be with a file open. -/
theorem c10_no_open_file_drops_file_leg :
    ∀ (st : SinkState) (m : Message), st.fileOpen = false →
      (WriteMessage st m).fileContent = st.fileContent ∧
      (WriteMessage st m).fileCallbacks = [] ∧
      (WriteMessage st m).consolePrints =
        (WriteMessage { st with fileOpen := true } m).consolePrints ∧
      (WriteMessage st m).consoleCallbacks =
        (WriteMessage { st with fileOpen := true } m).consoleCallbacks := by
  intro st m h
  refine ⟨?_, ?_, ?_, ?_⟩ <;>
    simp [WriteMessage, WriteMessageToFile, WriteMessageToConsole, h]

/-- A sink state with no open file. -/
def sinkClosed : SinkState :=
  { fileOpen := false, fileContent := [], hasConsole := true, callbacks := [0] }

/-- A file-and-console message used in concrete write scenarios. -/
def msgPlain : Message :=
  { type := .eMessage, flags := flagsFileConsole, pfx := [], content := "hello".toList }

theorem c10_no_open_file_drops_file_leg_witness :
    sinkClosed.fileOpen = false ∧
    ((WriteMessage sinkClosed msgPlain).fileContent = sinkClosed.fileContent ∧
     (WriteMessage sinkClosed msgPlain).fileCallbacks = [] ∧
     (WriteMessage sinkClosed msgPlain).consolePrints =
       (WriteMessage { sinkClosed with fileOpen := true } msgPlain).consolePrints ∧
     (WriteMessage sinkClosed msgPlain).consoleCallbacks =
       (WriteMessage { sinkClosed with fileOpen := true } msgPlain).consoleCallbacks) :=
  ⟨by decide, c10_no_open_file_drops_file_leg sinkClosed msgPlain (by decide)⟩

/-- With the lock held, the write loop and the clear of `OnUpdate` keep the
lock held throughout. -/
theorem writesUnderLock_writeLoop (ms : List Message) :
    writesUnderLock true (ms.map DrainEv.write ++ [DrainEv.clearQueue, DrainEv.release])
      = true := by
  induction ms with
  | nil => rfl
  | cons m rest ih => simpa [writesUnderLock] using ih

/-- C8 counterexample: in the drain trace of a one-message queue, the
message is written before the lock is released, so the claimed
detach-release-then-write shape does not hold. -/
theorem c8_counterexample :
    writesOnlyAfterRelease false (OnUpdateTrace [msgPlain]) = false := by decide

/-- C8 (amended): `Drain` writes the queued messages in original FIFO order
and leaves the queue empty, but it holds the queue lock for the whole
duration, every write happening inside the critical section — producers can
therefore block on the lock while the drain performs I/O. -/
theorem c8_drain_fifo_lock_held :
    ∀ queue : List Message,
      OnUpdate queue = ([], queue) ∧
      writesUnderLock false (OnUpdateTrace queue) = true ∧
      (queue ≠ [] → writesOnlyAfterRelease false (OnUpdateTrace queue) = false) := by
  intro queue
  refine ⟨rfl, ?_, ?_⟩
  · simpa [OnUpdateTrace, writesUnderLock] using writesUnderLock_writeLoop queue
  · intro hne
    match queue with
    | [] => exact absurd rfl hne
    | m :: rest =>
      simp [OnUpdateTrace, writesOnlyAfterRelease]

theorem c8_drain_fifo_lock_held_witness :
    ([msgPlain] : List Message) ≠ [] ∧
    (OnUpdate [msgPlain] = ([], [msgPlain]) ∧
     writesOnlyAfterRelease false (OnUpdateTrace [msgPlain]) = false) :=
  ⟨by decide,
   (c8_drain_fifo_lock_held [msgPlain]).1,
   (c8_drain_fifo_lock_held [msgPlain]).2.2 (by decide)⟩

/-- Configuration whose prefix template is `"%%"` and whose verbosity admits
everything. -/
def cfgPfxPercent : LoggerConfig :=
  { mVerbosity := 0, cvarVerbosity := some 4, cvarFileVerbosity := some 4,
    cvarPfx := some ['%', '%'] }

/-- Flags `FLAG_FILE | FLAG_CONSOLE | FLAG_APPEND`. -/
def flagsAppendAll : MsgFlags := { toFile := true, toConsole := true, append := true }

/-- C2 counterexample: an Append-flagged submission that passes the
verbosity filter is built with a rendered, non-empty prefix (the prefix is
computed regardless of the Append flag; it is merely never written). -/
theorem c2_counterexample :
    (PushMessageV cfgPfxPercent envSnap .eMessage flagsAppendAll (some "hi".toList)).map
        Message.pfx = some ['%', ' '] ∧
    (PushMessageV cfgPfxPercent envSnap .eMessage flagsAppendAll (some "hi".toList)).map
        Message.pfx ≠ some [] := by decide

/-- C2 (amended): the prefix is computed for Append-flagged messages too,
but the file sink never writes it — the byte buffer of an Append message
holds the transformed content alone — and writing an Append message
immediately after a non-Append message leaves their contents on one line:
the resulting file is the old content, the first message's prefix and
content, and the second message's content, ended by exactly one newline. -/
theorem c2_append_no_written_pfx_single_line :
    (∀ m : Message, m.flags.append = true →
      fileBuffer m = formatContentForFile m.content ++ OS_NEWLINE) ∧
    (∀ (f0 : List Char) (m1 m2 : Message),
      m1.flags.append = false → m2.flags.append = true →
      writeFileContent (writeFileContent f0 m1) m2 =
        f0 ++ m1.pfx ++ formatContentForFile m1.content
           ++ formatContentForFile m2.content ++ OS_NEWLINE) ∧
    (∀ (f0 : List Char) (m1 m2 : Message),
      m1.flags.append = false → m2.flags.append = true →
      m1.pfx.count '\n' = 0 →
      (formatContentForFile m1.content).count '\n' = 0 →
      (formatContentForFile m2.content).count '\n' = 0 →
      (writeFileContent (writeFileContent f0 m1) m2).count '\n'
        = f0.count '\n' + 1) := by
  have hbuf : ∀ m : Message, m.flags.append = true →
      fileBuffer m = formatContentForFile m.content ++ OS_NEWLINE := by
    intro m hm
    simp [fileBuffer, hm]
  have happ : ∀ (fprev : List Char) (m2 : Message), m2.flags.append = true →
      ∀ xs : List Char, fprev = xs ++ ['\n'] →
      writeFileContent fprev m2 = xs ++ formatContentForFile m2.content ++ ['\n'] := by
    intro fprev m2 h2 xs hprev
    subst hprev
    simp [writeFileContent, h2, fileBuffer, OS_NEWLINE, OS_NEWLINE_LENGTH,
      List.take_left]
  have hwrite : ∀ (f0 : List Char) (m1 m2 : Message),
      m1.flags.append = false → m2.flags.append = true →
      writeFileContent (writeFileContent f0 m1) m2 =
        f0 ++ m1.pfx ++ formatContentForFile m1.content
           ++ formatContentForFile m2.content ++ OS_NEWLINE := by
    intro f0 m1 m2 h1 h2
    have step1 : writeFileContent f0 m1 =
        (f0 ++ m1.pfx ++ formatContentForFile m1.content) ++ ['\n'] := by
      simp [writeFileContent, fileBuffer, h1, OS_NEWLINE]
    rw [happ _ m2 h2 _ step1]
    simp [OS_NEWLINE]
  refine ⟨hbuf, hwrite, ?_⟩
  intro f0 m1 m2 h1 h2 hp hc1 hc2
  rw [hwrite f0 m1 m2 h1 h2]
  simp [List.count_append, hp, hc1, hc2, OS_NEWLINE]

/-- A non-Append message with a prefix, for the single-line scenario. -/
def msgFirst : Message :=
  { type := .eMessage, flags := flagsFileConsole, pfx := "P ".toList,
    content := "one".toList }

/-- An Append continuation message, for the single-line scenario. -/
def msgSecond : Message :=
  { type := .eMessage, flags := flagsAppendAll, pfx := "P ".toList,
    content := "two".toList }

theorem c2_append_no_written_pfx_single_line_witness :
    (msgFirst.flags.append = false ∧ msgSecond.flags.append = true ∧
     msgFirst.pfx.count '\n' = 0 ∧
     (formatContentForFile msgFirst.content).count '\n' = 0 ∧
     (formatContentForFile msgSecond.content).count '\n' = 0) ∧
    (writeFileContent (writeFileContent [] msgFirst) msgSecond).count '\n'
      = ([] : List Char).count '\n' + 1 :=
  ⟨⟨by decide, by decide, by decide, by decide, by decide⟩,
   c2_append_no_written_pfx_single_line.2.2 [] msgFirst msgSecond
     (by decide) (by decide) (by decide) (by decide) (by decide)⟩

/-- C3 counterexample: the file-sink transformation of
`"warn$1text$$more"` is not `"warntextmore"` (the `$$` pair collapses to a
literal `$` that the claimed output omits). -/
theorem c3_counterexample :
    formatContentForFile "warn$1text$$more".toList ≠ "warntextmore".toList := by decide

/-- C3 (amended): each single `$` introduces a two-character color code
(the `$` and the following character) that is stripped entirely, `$$`
collapses to one literal `$`, and the content `"warn$1text$$more"` is
written to the file as exactly `"warntext$more"` before the appended
trailing newline. -/
theorem c3_color_stripping :
    (∀ (c : Char) (rest : List Char),
      formatContentForFile ('$' :: c :: rest) =
        (if c = '$' then ['$'] else []) ++ formatContentForFile rest) ∧
    formatContentForFile "warn$1text$$more".toList = "warntext$more".toList ∧
    fileBuffer { type := .eMessage, flags := flagsFileConsole, pfx := [],
                 content := "warn$1text$$more".toList }
      = "warntext$more".toList ++ OS_NEWLINE := by
  refine ⟨?_, by decide, by decide⟩
  intro c rest
  rfl

/-- C4: with the clock snapshot fixed at 2024-01-05 08:30:15.007 and UTC
bias 0, template expansion renders `"%F %T "` as `"2024-01-05 08:30:15 "`
and `"%%"` as `"%"`; templates `"0"` and `""` disable the prefix (empty
output, appended to no message); and every enabled template whose expansion
is non-empty yields that expansion with exactly one trailing space. -/
theorem c4_pfx_rendering :
    expandPfxTemplate envSnap "%F %T ".toList = "2024-01-05 08:30:15 ".toList ∧
    expandPfxTemplate envSnap "%%".toList = "%".toList ∧
    (∀ (env : EnvSnapshot) (cfg : LoggerConfig),
      cfg.cvarPfx = some ['0'] → BuildMessagePrefix env cfg = []) ∧
    (∀ (env : EnvSnapshot) (cfg : LoggerConfig),
      cfg.cvarPfx = some [] → BuildMessagePrefix env cfg = []) ∧
    (∀ (env : EnvSnapshot) (cfg : LoggerConfig) (tpl : List Char),
      cfg.cvarPfx = some tpl → tpl ≠ [] → tpl ≠ ['0'] →
      expandPfxTemplate env tpl ≠ [] →
      BuildMessagePrefix env cfg = expandPfxTemplate env tpl ++ [' ']) := by
  refine ⟨by decide, by decide, ?_, ?_, ?_⟩
  · intro env cfg h
    simp [BuildMessagePrefix, h]
  · intro env cfg h
    simp [BuildMessagePrefix, h]
  · intro env cfg tpl h hne hne0 hexp
    unfold BuildMessagePrefix
    rw [h]
    simp [hne, hne0, hexp]

/-- Configuration whose prefix template is `"%F %T "`. -/
def cfgPfxDateTime : LoggerConfig :=
  { mVerbosity := 0, cvarVerbosity := some 4, cvarFileVerbosity := some 4,
    cvarPfx := some "%F %T ".toList }

theorem c4_pfx_rendering_witness :
    (cfgPfxDateTime.cvarPfx = some "%F %T ".toList ∧
     "%F %T ".toList ≠ ([] : List Char) ∧ "%F %T ".toList ≠ ['0'] ∧
     expandPfxTemplate envSnap "%F %T ".toList ≠ []) ∧
    BuildMessagePrefix envSnap cfgPfxDateTime =
      expandPfxTemplate envSnap "%F %T ".toList ++ [' '] :=
  ⟨⟨by decide, by decide, by decide, by decide⟩,
   c4_pfx_rendering.2.2.2.2 envSnap cfgPfxDateTime "%F %T ".toList
     (by decide) (by decide) (by decide) (by decide)⟩

/-- Looking up the path just written. -/
theorem fsLookup_fsSet_self (fs : FS) (p : LogPath) (c : List Char) :
    fsLookup (fsSet fs p c) p = some c := by
  induction fs with
  | nil => simp [fsSet, fsLookup]
  | cons hd rest ih =>
    obtain ⟨q, d⟩ := hd
    by_cases h : q = p <;> simp [fsSet, fsLookup, h, ih]

/-- Writing one path leaves every other path unchanged. -/
theorem fsLookup_fsSet_ne (fs : FS) (p q : LogPath) (c : List Char) (h : q ≠ p) :
    fsLookup (fsSet fs p c) q = fsLookup fs q := by
  induction fs with
  | nil => simp [fsSet, fsLookup, Ne.symm h]
  | cons hd rest ih =>
    obtain ⟨r, d⟩ := hd
    by_cases hr : r = p
    · subst hr
      simp [fsSet, fsLookup, Ne.symm h]
    · simp [fsSet, fsLookup, hr, ih]

/-- A 256-byte header of a non-empty file is non-empty. -/
theorem take256_ne_nil (c : List Char) (h : c ≠ []) : c.take 256 ≠ [] := by
  cases c with
  | nil => exact absurd rfl h
  | cons x rest => simp [List.take]

/-- C5: `OpenFile` on a path with no pre-existing content (absent, or
existing but empty) leaves the live file empty and creates no other entry;
on a path with non-empty content it creates exactly one new file, under the
`LogBackups` subdirectory, byte-identical to the pre-existing content, and
truncates the live file to zero length. -/
theorem c5_openfile_rotation :
    (∀ (fs : FS) (p : LogPath), fsLookup fs p = none →
      OpenFile noFaults fs p = .ok (fsSet fs p []) ∧
      fsLookup (fsSet fs p []) p = some [] ∧
      (∀ q : LogPath, q ≠ p → fsLookup (fsSet fs p []) q = fsLookup fs q)) ∧
    (∀ (fs : FS) (p : LogPath), fsLookup fs p = some [] →
      OpenFile noFaults fs p = .ok (fsSet fs p []) ∧
      fsLookup (fsSet fs p []) p = some [] ∧
      (∀ q : LogPath, q ≠ p → fsLookup (fsSet fs p []) q = fsLookup fs q)) ∧
    (∀ (fs : FS) (p : LogPath) (c : List Char),
      fsLookup fs p = some c → c ≠ [] →
      fsLookup fs (backupTargetPath p (c.take 256)) = none →
      OpenFile noFaults fs p =
        .ok (fsSet (fsSet fs (backupTargetPath p (c.take 256)) c) p []) ∧
      fsLookup (fsSet (fsSet fs (backupTargetPath p (c.take 256)) c) p [])
        (backupTargetPath p (c.take 256)) = some c ∧
      fsLookup (fsSet (fsSet fs (backupTargetPath p (c.take 256)) c) p []) p = some [] ∧
      (∃ rest, backupTargetPath p (c.take 256) = backupDirPath p ++ '/' :: rest) ∧
      (∀ q : LogPath,
        (fsLookup fs q = none ∧
         (fsLookup (fsSet (fsSet fs (backupTargetPath p (c.take 256)) c) p []) q).isSome
           = true) ↔ q = backupTargetPath p (c.take 256))) := by
  refine ⟨?_, ?_, ?_⟩
  · intro fs p h
    refine ⟨by simp [OpenFile, noFaults, h], fsLookup_fsSet_self fs p [], ?_⟩
    intro q hq
    exact fsLookup_fsSet_ne fs p q [] hq
  · intro fs p h
    refine ⟨by simp [OpenFile, noFaults, h], fsLookup_fsSet_self fs p [], ?_⟩
    intro q hq
    exact fsLookup_fsSet_ne fs p q [] hq
  · intro fs p c hc hcne hbp
    have htake : c.take 256 ≠ [] := take256_ne_nil c hcne
    have hbpp : backupTargetPath p (c.take 256) ≠ p := by
      intro he
      rw [he, hc] at hbp
      exact Option.noConfusion hbp
    refine ⟨by simp [OpenFile, noFaults, hc, htake], ?_, fsLookup_fsSet_self _ p [], ⟨_, rfl⟩, ?_⟩
    · rw [fsLookup_fsSet_ne _ p _ [] hbpp, fsLookup_fsSet_self]
    · intro q
      constructor
      · rintro ⟨hqnone, hqsome⟩
        by_cases hqp : q = p
        · rw [hqp, hc] at hqnone
          exact absurd hqnone (Option.noConfusion)
        · by_cases hqb : q = backupTargetPath p (c.take 256)
          · exact hqb
          · rw [fsLookup_fsSet_ne _ p q [] hqp, fsLookup_fsSet_ne _ _ q c hqb, hqnone]
              at hqsome
            simp at hqsome
      · intro hq
        subst hq
        refine ⟨hbp, ?_⟩
        rw [fsLookup_fsSet_ne _ p _ [] hbpp, fsLookup_fsSet_self]
        rfl

/-- The live log file of the concrete rotation scenario. -/
def pGame : LogPath := "Game/Server.log".toList

/-- A one-file filesystem holding non-empty content at the live path. -/
def fsGame : FS := [(pGame, "hello".toList)]

theorem c5_openfile_rotation_witness :
    (fsLookup fsGame pGame = some "hello".toList ∧ "hello".toList ≠ ([] : List Char) ∧
     fsLookup fsGame (backupTargetPath pGame ("hello".toList.take 256)) = none) ∧
    OpenFile noFaults fsGame pGame =
      .ok (fsSet (fsSet fsGame (backupTargetPath pGame ("hello".toList.take 256))
        "hello".toList) pGame []) :=
  ⟨⟨by decide, by decide, by decide⟩,
   (c5_openfile_rotation.2.2 fsGame pGame "hello".toList (by decide) (by decide)
     (by decide)).1⟩

/-- The header of the C6 counterexample:
`BackupNameAttachment="a<LF>b"` — the LF sits inside the quotes. -/
def headerQuoteLF : List Char :=
  backupNameMarker ++ '"' :: 'a' :: '\n' :: 'b' :: '"' :: []

/-- C6 counterexample: on a header whose quoted value contains a line feed
before the closing quote, the source cuts the value at the closing quote
(`"a<LF>b"` gives `a<LF>b`), not at whichever of `"`, CR, LF comes first
(which would give `a`): the quote is searched before CR and LF, not
together with them. -/
theorem c6_counterexample :
    ExtractBackupNameAttachment headerQuoteLF = ['a', '\n', 'b'] ∧
    extractBackupNameAttachmentClaimed headerQuoteLF = ['a'] ∧
    ExtractBackupNameAttachment headerQuoteLF ≠
      extractBackupNameAttachmentClaimed headerQuoteLF := by decide

/-- A list is a prefix of itself followed by anything. -/
theorem isPrefixOf_append_self (a b : List Char) : a.isPrefixOf (a ++ b) = true := by
  induction a with
  | nil => cases b <;> rfl
  | cons x xs ih => simp [List.isPrefixOf, ih]

/-- `findIdxP` on a list whose first hit sits right after a miss-free block
reports the block's length. -/
theorem findIdxP_append_cons (p : Char → Bool) (v rest : List Char) (x : Char)
    (hv : ∀ y ∈ v, p y = false) (hx : p x = true) :
    findIdxP p (v ++ x :: rest) = some v.length := by
  induction v with
  | nil => simp [findIdxP, hx]
  | cons a as ih =>
    have ha : p a = false := hv a (List.mem_cons_self a as)
    have has : ∀ y ∈ as, p y = false := fun y hy => hv y (List.mem_cons_of_mem a hy)
    simp [findIdxP, ha, ih has]

/-- C6 (amended): the marker is recognised only when the header begins with
it (otherwise the suffix is empty); in the quoted form, the value runs from
after the first `"` up to the next `"` — even across CR or LF characters,
the quote is searched first, then CR, then LF — and `OpenFile` uses the
value extracted from the first 256 bytes of the pre-existing content as the
filename-disambiguation suffix of the backup. -/
theorem c6_backup_name_attachment :
    (∀ (v rest : List Char), '"' ∉ v →
      ExtractBackupNameAttachment (backupNameMarker ++ '"' :: v ++ '"' :: rest) = v) ∧
    (∀ header : List Char, backupNameMarker.isPrefixOf header = false →
      ExtractBackupNameAttachment header = []) ∧
    (∀ (fs : FS) (p : LogPath) (c : List Char),
      fsLookup fs p = some c → c ≠ [] →
      backupTargetPath p (c.take 256) ≠ p →
      OpenFile noFaults fs p =
        .ok (fsSet (fsSet fs (backupTargetPath p (c.take 256)) c) p []) ∧
      fsLookup (fsSet (fsSet fs (backupTargetPath p (c.take 256)) c) p [])
        (backupTargetPath p (c.take 256)) = some c) := by
  refine ⟨?_, ?_, ?_⟩
  · intro v rest hv
    have hpre := isPrefixOf_append_self backupNameMarker ('"' :: v ++ '"' :: rest)
    have hv' : ∀ y ∈ v, (y == '"') = false := by
      intro y hy
      have : y ≠ '"' := fun he => hv (he ▸ hy)
      simpa using this
    simp [ExtractBackupNameAttachment, hpre, List.drop_left, findIdxP,
      findIdxP_append_cons (fun c => c == '"') v rest '"' hv' (by simp),
      List.take_left]
  · intro header h
    simp [ExtractBackupNameAttachment, h]
  · intro fs p c hc hcne hbpp
    have htake : c.take 256 ≠ [] := take256_ne_nil c hcne
    refine ⟨by simp [OpenFile, noFaults, hc, htake], ?_⟩
    rw [fsLookup_fsSet_ne _ p _ [] hbpp, fsLookup_fsSet_self]

/-- The fault model where only the read of the pre-existing file fails. -/
def faultsRead : OSFaults :=
  { openFails := false, readFails := true, mkdirFails := false, copyFails := false,
    resizeFails := false }

/-- The fault model where only the open of the log file fails. -/
def faultsOpen : OSFaults :=
  { openFails := true, readFails := false, mkdirFails := false, copyFails := false,
    resizeFails := false }

/-- C9 counterexample: the fatal error raised by a read failure on the
pre-existing log file names the failed operation but no path (the thrown
message in the source carries no path argument), so not every such error
carries the failed operation *and* path. -/
theorem c9_counterexample :
    OpenFile faultsRead fsGame pGame = .error ⟨.readExisting, []⟩ ∧
    LogError.paths ⟨.readExisting, []⟩ = [] ∧
    pGame ∉ LogError.paths ⟨.readExisting, []⟩ :=
  ⟨rfl, rfl, by decide⟩

/-- C9 (amended): every failure during explicit file open/rotate raises a
fatal error surfaced to the caller carrying the failed operation — with the
path(s) for the open, directory-creation, copy and truncate failures, but
with no path for the read failure — with no automatic retry; a null/absent
format string is silently dropped at submission before any filtering
(regardless of the verbosity configuration), not treated as an error. -/
theorem c9_error_reporting :
    (∀ (faults : OSFaults) (fs : FS) (p : LogPath), faults.openFails = true →
      OpenFile faults fs p = .error ⟨.openLog, [p]⟩) ∧
    (∀ (fs : FS) (p : LogPath) (c : List Char), fsLookup fs p = some c →
      OpenFile faultsRead fs p = .error ⟨.readExisting, []⟩) ∧
    (∀ (faults : OSFaults) (fs : FS) (p : LogPath) (c : List Char),
      faults.openFails = false → faults.readFails = false → faults.mkdirFails = true →
      fsLookup fs p = some c → c ≠ [] →
      OpenFile faults fs p = .error ⟨.createBackupDir, [backupDirPath p]⟩) ∧
    (∀ (faults : OSFaults) (fs : FS) (p : LogPath) (c : List Char),
      faults.openFails = false → faults.readFails = false → faults.mkdirFails = false →
      faults.copyFails = true →
      fsLookup fs p = some c → c ≠ [] →
      OpenFile faults fs p =
        .error ⟨.copyExisting, [p, backupTargetPath p (c.take 256)]⟩) ∧
    (∀ (faults : OSFaults) (fs : FS) (p : LogPath) (c : List Char),
      faults.openFails = false → faults.readFails = false → faults.mkdirFails = false →
      faults.copyFails = false → faults.resizeFails = true →
      fsLookup fs p = some c → c ≠ [] →
      OpenFile faults fs p = .error ⟨.resizeExisting, [p]⟩) ∧
    (∀ (cfg : LoggerConfig) (env : EnvSnapshot) (t : ELogType) (fl : MsgFlags),
      PushMessageV cfg env t fl none = none) := by
  refine ⟨?_, ?_, ?_, ?_, ?_, ?_⟩
  · intro faults fs p h
    simp [OpenFile, h]
  · intro fs p c hc
    simp [OpenFile, faultsRead, hc]
  · intro faults fs p c h1 h2 h3 hc hcne
    simp [OpenFile, h1, h2, h3, hc, take256_ne_nil c hcne]
  · intro faults fs p c h1 h2 h3 h4 hc hcne
    simp [OpenFile, h1, h2, h3, h4, hc, take256_ne_nil c hcne]
  · intro faults fs p c h1 h2 h3 h4 h5 hc hcne
    simp [OpenFile, h1, h2, h3, h4, h5, hc, take256_ne_nil c hcne]
  · intro cfg env t fl
    rfl

theorem c9_error_reporting_witness :
    faultsOpen.openFails = true ∧
    OpenFile faultsOpen fsGame pGame = .error ⟨.openLog, [pGame]⟩ :=
  ⟨by decide, c9_error_reporting.1 faultsOpen fsGame pGame (by decide)⟩

theorem c6_backup_name_attachment_witness :
    ('"' ∉ (['a', 't'] : List Char)) ∧
    ExtractBackupNameAttachment
      (backupNameMarker ++ '"' :: ['a', 't'] ++ '"' :: "\r\n".toList) = ['a', 't'] :=
  ⟨by decide, c6_backup_name_attachment.1 ['a', 't'] "\r\n".toList (by decide)⟩
